import Mathlib

/-!
Verification of the Genefy genetic mating evaluation engine
(`backend/services/genetics_complete.py` and
`backend/services/matching.py`) against its design specification.

The engine works on loose Python-dict records; we embed those as
association lists of `Value`s, Python floats as exact rationals, and the
engine's functions as computable Lean functions translated clause by
clause from the source.
-/

namespace Genefy

/-- A Python value as stored in the dict-shaped animal records:
a number (Python int/float, embedded as an exact rational), a string,
a nested dict, or `None`. -/
inductive Value where
  | num (q : ℚ)
  | str (s : String)
  | dict (entries : List (String × Value))
  | null

/-- Python truthiness for a `Value` (`0`, `''`, `{}` and `None` are falsy). -/
def Value.truthy : Value → Bool
  | .num q => q != 0
  | .str s => s != ""
  | .dict d => !d.isEmpty
  | .null => false

mutual

/-- Python `==` on stored values (structural; dicts compared entrywise). -/
def Value.beq : Value → Value → Bool
  | .num a, .num b => a == b
  | .str a, .str b => a == b
  | .null, .null => true
  | .dict a, .dict b => Value.beqEntries a b
  | _, _ => false

/-- Entrywise comparison of dict entry lists, used by `Value.beq`. -/
def Value.beqEntries : List (String × Value) → List (String × Value) → Bool
  | [], [] => true
  | (k, v) :: t, (k', v') :: t' => k == k' && Value.beq v v' && Value.beqEntries t t'
  | _, _ => false

end

/-- Python `a or b`: `a` if truthy, else `b`. -/
def pyOr (a b : Value) : Value := if a.truthy then a else b

/-- A record (`Dict` in the source): an association list from keys to values. -/
abbrev Record := List (String × Value)

/-- First-match association-list lookup (Python dict access). -/
def qlookup {α : Type} (l : List (String × α)) (k : String) : Option α :=
  match l with
  | [] => Option.none
  | (k', v) :: t => if k' = k then some v else qlookup t k

/-- Python `data.get(key)`: the stored value, or `None` when absent. -/
def rget (data : Record) (key : String) : Value :=
  (qlookup data key).getD Value.null

/-- Python `data.get(key, {})` followed by an `isinstance(…, dict)` guard:
the nested dict when the key holds one, else the empty dict. -/
def subDict (data : Record) (key : String) : Record :=
  match rget data key with
  | .dict d => d
  | _ => []

/-- Value of a digit string (most significant first). -/
def digitsToNat (cs : List Char) : ℕ :=
  cs.foldl (fun a c => a * 10 + (c.toNat - 48)) 0

/-- The RESTRICTION of Python `float(s)` to plain decimal numerals:
optional sign, integer digits, optional fractional part.  The source's
`float()` accepts strictly more string inputs — surrounding whitespace,
underscore digit separators, exponent notation, and the non-finite
tokens `inf`/`infinity`/`nan` — and `parsePyFloat` below models that
full grammar.  This finite plain-decimal fragment is what the arithmetic
pipeline of the embedding consumes, since only finite values are exactly
representable as rationals. -/
def parseDecimal (s : String) : Option ℚ :=
  let cs := s.data
  let sgn : ℚ := match cs with
    | '-' :: _ => -1
    | _ => 1
  let rest : List Char := match cs with
    | '-' :: t => t
    | '+' :: t => t
    | t => t
  let intPart := rest.takeWhile Char.isDigit
  let rest2 := rest.dropWhile Char.isDigit
  match rest2 with
  | [] =>
    if intPart.isEmpty then Option.none
    else some (sgn * (digitsToNat intPart : ℚ))
  | '.' :: frac =>
    if frac.all Char.isDigit ∧ ¬(intPart.isEmpty ∧ frac.isEmpty) then
      some (sgn * ((digitsToNat intPart : ℚ) + (digitsToNat frac : ℚ) / 10 ^ frac.length))
    else Option.none
  | _ => Option.none

/-- Python `float(value)` as used under `try/except` in the source,
restricted to the plain-decimal string fragment of `parseDecimal`:
numbers convert, plain decimal numeral strings parse, and dicts and
`None` raise `TypeError` in the source (modelled as `none`).  Strings
the real `float()` also converts — exponent/underscore/whitespace
numerals and `inf`/`nan` — are outside this fragment; `pyFloatFull`
below is the faithful conversion covering them. -/
def pyFloat : Value → Option ℚ
  | .num q => some q
  | .str s => parseDecimal s
  | _ => Option.none

/-- Truncation of a rational toward zero (Python `int(float)`). -/
def ratTrunc (q : ℚ) : ℤ := if 0 ≤ q then ⌊q⌋ else ⌈q⌉

/-- Model of Python `int(value)`: numbers truncate toward zero, strings
parse as signed decimal integers, everything else raises (`none`). -/
def pyInt : Value → Option ℤ
  | .num q => some (ratTrunc q)
  | .str s =>
    let cs := s.data
    let sgn : ℤ := match cs with
      | '-' :: _ => -1
      | _ => 1
    let rest : List Char := match cs with
      | '-' :: t => t
      | '+' :: t => t
      | t => t
    if rest.isEmpty ∨ ¬rest.all Char.isDigit then Option.none
    else some (sgn * (digitsToNat rest : ℤ))
  | _ => Option.none

/-- Round-half-even to an integer (Python `round` tie behaviour). -/
def halfEven (q : ℚ) : ℤ :=
  if q - ⌊q⌋ < 1 / 2 then ⌊q⌋
  else if 1 / 2 < q - ⌊q⌋ then ⌊q⌋ + 1
  else if ⌊q⌋ % 2 = 0 then ⌊q⌋ else ⌊q⌋ + 1

/-- Python `round(q, n)`: round-half-even at `n` decimal places. -/
def roundTo (n : ℕ) (q : ℚ) : ℚ := (halfEven (q * 10 ^ n) : ℚ) / 10 ^ n

/-! ## Trait value resolution (`GeneticCalculator._get_index_value`) -/

/-- The alias table of `_get_index_value` (`name_mapping` in the source),
with the default `[index, index.upper(), index.lower()]` probe list. -/
def name_mapping (index : String) : List String :=
  if index = "genomic_inbreeding" then ["genomic_inbreeding", "gINB", "ginb", "gInb"]
  else if index = "gfi" then ["gfi", "GFI", "genomic_future_inbreeding"]
  else if index = "productive_life" then ["productive_life", "PRODUCTIVE LIFE", "PL"]
  else if index = "fertility_index" then ["fertility_index", "FERTILITY INDEX", "FI"]
  else if index = "scs" then ["scs", "SCS", "SOMATIC CELL SCORE"]
  else if index = "dpr" then ["dpr", "DPR", "DAUGHTER PREGNANCY RATE"]
  else if index = "hcr" then ["hcr", "HCR", "HEIFER CONCEPTION RATE", "heifer_conception_rate"]
  else if index = "ccr" then ["ccr", "CCR", "COW CONCEPTION RATE", "cow_conception_rate"]
  else [index, index.toUpper, index.toLower]

/-- One probing loop of `_get_index_value`: try each key in order, return
the first stored value that converts under `float(...)`, skipping keys that
are absent or whose value raises. -/
def tryKeys (d : Record) : List String → Option ℚ
  | [] => Option.none
  | k :: ks =>
    match pyFloat (rget d k) with
    | some v => some v
    | Option.none => tryKeys d ks

/-- `GeneticCalculator._get_index_value`: probe the alias keys directly on
the record, then inside the `main_indices` sub-dict, then inside the
`genetic_data` sub-dict. -/
def get_index_value (data : Record) (index : String) : Option ℚ :=
  let keys := name_mapping index
  match tryKeys data keys with
  | some v => some v
  | Option.none =>
    match tryKeys (subDict data "main_indices") keys with
    | some v => some v
    | Option.none => tryKeys (subDict data "genetic_data") keys

/-- The ordered list of values at every probed location of
`_get_index_value` (alias keys on the record itself, then in the
`main_indices` sub-dict, then in the `genetic_data` sub-dict). -/
def probedValues (data : Record) (index : String) : List Value :=
  let keys := name_mapping index
  keys.map (rget data) ++ keys.map (rget (subDict data "main_indices"))
    ++ keys.map (rget (subDict data "genetic_data"))

/-- The resolver as the spec words it: the first probed value that parses
as a (finite) number, `none` when there is no such value. -/
def specResolve (data : Record) (index : String) : Option ℚ :=
  ((probedValues data index).filterMap pyFloat).head?

/-! ### The faithful `float()` model

Python's `float(str)` also accepts exponent notation, underscore digit
separators, surrounding whitespace, and the non-finite tokens
`inf`/`infinity`/`nan` (case-insensitive, optionally signed).  The
resolver therefore can return non-finite values, which `Option ℚ`
cannot represent; `PyNum` and `pyFloatFull` model the conversion
faithfully. -/

/-- The result of a successful Python `float()` conversion: a finite
value (embedded exactly as a rational), an infinity, or a NaN. -/
inductive PyNum where
  | finite (q : ℚ)
  | posInf
  | negInf
  | nan
deriving DecidableEq

/-- Consume a digit group of a Python numeral: `digit (_? digit)*`,
single underscores allowed only between digits.  Returns the group's
value, its digit count, and the unconsumed remainder (a misplaced
underscore is left unconsumed, making the whole numeral fail the
trailing-junk check). -/
def digitsUnd : ℕ → ℕ → List Char → ℕ × ℕ × List Char
  | acc, n, [] => (acc, n, [])
  | acc, n, c :: rest =>
    if c.isDigit then digitsUnd (acc * 10 + (c.toNat - 48)) (n + 1) rest
    else if c = '_' ∧ n ≠ 0 then
      match rest with
      | d :: rest2 =>
        if d.isDigit then digitsUnd (acc * 10 + (d.toNat - 48)) (n + 1) rest2
        else (acc, n, c :: rest)
      | [] => (acc, n, c :: rest)
    else (acc, n, c :: rest)

/-- Full model of Python `float(s)` on strings: strip surrounding (ASCII)
whitespace, then an optional sign followed by `inf`/`infinity`/`nan`
(case-insensitive) or a decimal numeral `[digits][.digits][(e|E)[sign]digits]`
with at least one mantissa digit and underscore separators only between
digits.  Anything else raises `ValueError` in the source (`none` here).
Out of model scope: non-ASCII digits and non-ASCII whitespace, which
CPython also accepts. -/
def parsePyFloat (s : String) : Option PyNum :=
  let cs := ((s.data.dropWhile Char.isWhitespace).reverse.dropWhile Char.isWhitespace).reverse
  let neg : Bool := match cs with
    | '-' :: _ => true
    | _ => false
  let rest : List Char := match cs with
    | '-' :: t => t
    | '+' :: t => t
    | t => t
  let lower := rest.map Char.toLower
  if lower = ['i', 'n', 'f'] ∨ lower = ['i', 'n', 'f', 'i', 'n', 'i', 't', 'y'] then
    some (if neg then PyNum.negInf else PyNum.posInf)
  else if lower = ['n', 'a', 'n'] then some PyNum.nan
  else
    match digitsUnd 0 0 rest with
    | (ival, intDigits, rest1) =>
      let fracStep : ℕ × ℕ × List Char := match rest1 with
        | '.' :: t => digitsUnd 0 0 t
        | t => (0, 0, t)
      match fracStep with
      | (fval, fracDigits, rest2) =>
        if intDigits + fracDigits = 0 then Option.none
        else
          let mant : ℚ := (ival : ℚ) + (fval : ℚ) / 10 ^ fracDigits
          let sgn : ℚ := if neg then -1 else 1
          match rest2 with
          | [] => some (PyNum.finite (sgn * mant))
          | e :: t =>
            if e = 'e' ∨ e = 'E' then
              let eneg : Bool := match t with
                | '-' :: _ => true
                | _ => false
              let t2 : List Char := match t with
                | '-' :: u => u
                | '+' :: u => u
                | u => u
              match digitsUnd 0 0 t2 with
              | (eval, expDigits, rest3) =>
                if expDigits = 0 ∨ ¬rest3.isEmpty then Option.none
                else some (PyNum.finite
                  (sgn * mant * (if eneg then (1 : ℚ) / 10 ^ eval else 10 ^ eval)))
            else Option.none

/-- Faithful model of Python `float(value)` under `try/except`: numbers
convert to their (finite) value, strings parse under the full `float()`
grammar — finite, infinite or NaN — and dicts and `None` raise
(`none`). -/
def pyFloatFull : Value → Option PyNum
  | .num q => some (PyNum.finite q)
  | .str s => parsePyFloat s
  | _ => Option.none

/-- The probing loop of `_get_index_value` under the faithful `float()`
model: the first stored value that converts, whatever it converts to. -/
def tryKeysFull (d : Record) : List String → Option PyNum
  | [] => Option.none
  | k :: ks =>
    match pyFloatFull (rget d k) with
    | some v => some v
    | Option.none => tryKeysFull d ks

/-- `GeneticCalculator._get_index_value` under the faithful `float()`
model: same probe order as `get_index_value`, but returning whatever the
first successful conversion yields — finite, infinite or NaN. -/
def get_index_value_full (data : Record) (index : String) : Option PyNum :=
  let keys := name_mapping index
  match tryKeysFull data keys with
  | some v => some v
  | Option.none =>
    match tryKeysFull (subDict data "main_indices") keys with
    | some v => some v
    | Option.none => tryKeysFull (subDict data "genetic_data") keys

/-- First-successful-conversion characterization of the faithful
resolver: the head of the convertible probed values. -/
def specResolveFull (data : Record) (index : String) : Option PyNum :=
  ((probedValues data index).filterMap pyFloatFull).head?

/-! ## Reliability resolution (`GeneticCalculator._get_reliability`) -/

/-- `default_bull_reliability` of `GeneticParameters`. -/
def default_bull_reliability : ℚ := 75

/-- `default_cow_reliability` of `GeneticParameters`. -/
def default_cow_reliability : ℚ := 55

/-- One candidate reliability value: accepted only when it converts under
`float(...)` AND lies in `[0, 100]`; out-of-range or unparseable values are
skipped (never clamped). -/
def relFromValue (v : Value) : Option ℚ :=
  match pyFloat v with
  | some val => if 0 ≤ val ∧ val ≤ 100 then some val else Option.none
  | Option.none => Option.none

/-- The in-range probing loop of step 3 of `_get_reliability`. -/
def tryRelKeys (d : Record) : List String → Option ℚ
  | [] => Option.none
  | k :: ks =>
    match relFromValue (rget d k) with
    | some v => some v
    | Option.none => tryRelKeys d ks

/-- Steps 1–3 of `_get_reliability`: the explicitly stored reliability —
the `{index}_rel` field, then the `reliabilities` sub-dict (under
`{index}_rel` or, when that entry is falsy, under `index`), then the
`genetic_data` sub-dict under three key spellings.  Only values that parse
and lie in `[0, 100]` are accepted. -/
def storedRel (data : Record) (index : String) : Option ℚ :=
  let rel_key := index ++ "_rel"
  match relFromValue (rget data rel_key) with
  | some v => some v
  | Option.none =>
    let rels := subDict data "reliabilities"
    match relFromValue (pyOr (rget rels rel_key) (rget rels index)) with
    | some v => some v
    | Option.none =>
      tryRelKeys (subDict data "genetic_data")
        [rel_key, index.toUpper ++ "_REL", index ++ " REL"]

/-- Step 4 of `_get_reliability`: for sires, infer reliability from the
`daughters` (or `num_daughters`) count by a step function; `none` when the
count is absent, falsy, unparseable or not positive. -/
def daughtersRel (data : Record) : Option ℚ :=
  let daughters := pyOr (rget data "daughters") (rget data "num_daughters")
  if daughters.truthy then
    match pyInt daughters with
    | some d =>
      if d ≥ 1000 then some 99
      else if d ≥ 500 then some 95
      else if d ≥ 100 then some 85
      else if d ≥ 50 then some 80
      else if d > 0 then some 75
      else Option.none
    | Option.none => Option.none
  else Option.none

/-- Steps 2–5 of `_get_reliability` (everything after the direct
`{index}_rel` field probe). -/
def reliabilityAfterDirect (data : Record) (index : String) (is_bull : Bool) : ℚ :=
  let rel_key := index ++ "_rel"
  let rels := subDict data "reliabilities"
  match relFromValue (pyOr (rget rels rel_key) (rget rels index)) with
  | some v => v
  | Option.none =>
    match tryRelKeys (subDict data "genetic_data")
        [rel_key, index.toUpper ++ "_REL", index ++ " REL"] with
    | some v => v
    | Option.none =>
      if is_bull then (daughtersRel data).getD default_bull_reliability
      else default_cow_reliability

/-- `GeneticCalculator._get_reliability`: explicit stored reliability
first, then (for sires) the daughter-count step function, then the role
default. -/
def get_reliability (data : Record) (index : String) (is_bull : Bool) : ℚ :=
  let rel_key := index ++ "_rel"
  match relFromValue (rget data rel_key) with
  | some v => v
  | Option.none => reliabilityAfterDirect data index is_bull

/-! ## Parameter tables (`GeneticParameters`, `population_stats`) -/

/-- `GeneticParameters.heritabilities`. -/
def heritabilities : List (String × ℚ) :=
  [("milk", 0.30), ("fat", 0.30), ("protein", 0.30), ("fat_percent", 0.50),
   ("protein_percent", 0.50), ("net_merit", 0.25), ("cheese_merit", 0.25),
   ("fluid_merit", 0.25), ("grazing_merit", 0.25), ("ptat", 0.30), ("udc", 0.25),
   ("flc", 0.15), ("bwc", 0.40), ("productive_life", 0.08), ("scs", 0.12),
   ("cow_livability", 0.02), ("heifer_livability", 0.02), ("dpr", 0.04),
   ("hcr", 0.01), ("ccr", 0.02), ("fertility_index", 0.04),
   ("early_first_calving", 0.10), ("mastitis", 0.04), ("metritis", 0.02),
   ("retained_placenta", 0.02), ("displaced_abomasum", 0.03), ("ketosis", 0.02),
   ("milk_fever", 0.05), ("sire_calving_ease", 0.08), ("daughter_calving_ease", 0.06),
   ("sire_stillbirth", 0.03), ("daughter_stillbirth", 0.02), ("gestation_length", 0.45),
   ("feed_saved", 0.15), ("rfi", 0.20), ("milking_speed", 0.15)]

/-- `GeneticParameters.category_weights` (the defaults). -/
def category_weights_default : List (String × ℚ) :=
  [("production", 0.30), ("health", 0.20), ("fertility", 0.18), ("type", 0.12),
   ("efficiency", 0.12), ("calving", 0.08)]

/-- `GeneticParameters.index_weights`: per-category trait weights. -/
def index_weights : List (String × List (String × ℚ)) :=
  [("production",
    [("milk", 0.40), ("protein", 0.30), ("fat", 0.20), ("protein_percent", 0.05),
     ("fat_percent", 0.05)]),
   ("health",
    [("productive_life", 0.35), ("scs", 0.20), ("cow_livability", 0.15),
     ("mastitis", 0.10), ("metritis", 0.05), ("displaced_abomasum", 0.05),
     ("ketosis", 0.05), ("milk_fever", 0.05)]),
   ("fertility",
    [("fertility_index", 0.30), ("dpr", 0.25), ("ccr", 0.20), ("hcr", 0.15),
     ("early_first_calving", 0.10)]),
   ("type",
    [("udc", 0.40), ("flc", 0.30), ("ptat", 0.20), ("bwc", 0.10)]),
   ("efficiency",
    [("feed_saved", 0.40), ("rfi", 0.40), ("milking_speed", 0.20)]),
   ("calving",
    [("sire_calving_ease", 0.30), ("daughter_calving_ease", 0.30),
     ("sire_stillbirth", 0.20), ("daughter_stillbirth", 0.20)])]

/-- `GeneticParameters.negative_indices`: traits where lower is better. -/
def negative_indices : List String :=
  ["scs", "rfi", "sire_calving_ease", "daughter_calving_ease", "sire_stillbirth",
   "daughter_stillbirth", "gestation_length", "mastitis", "metritis",
   "retained_placenta", "displaced_abomasum", "ketosis", "milk_fever"]

/-- `GeneticParameters.inbreeding_ideal`. -/
def inbreeding_ideal : ℚ := 6.25

/-- `GeneticParameters.inbreeding_acceptable`. -/
def inbreeding_acceptable : ℚ := 8.0

/-- `GeneticParameters.inbreeding_warning`. -/
def inbreeding_warning : ℚ := 10.0

/-- `GeneticParameters.inbreeding_penalty_lambda`. -/
def inbreeding_penalty_lambda : ℚ := 3.0

/-- `GeneticCalculator.population_stats`: trait → (mean, std). -/
def population_stats : List (String × ℚ × ℚ) :=
  [("milk", (500, 700)), ("protein", (20, 25)), ("fat", (25, 35)),
   ("fat_percent", (0.0, 0.15)), ("protein_percent", (0.0, 0.08)),
   ("net_merit", (400, 350)), ("cheese_merit", (450, 380)),
   ("fluid_merit", (350, 320)), ("grazing_merit", (300, 280)),
   ("productive_life", (3.0, 2.5)), ("scs", (2.85, 0.15)), ("dpr", (0.5, 2.0)),
   ("hcr", (0.5, 2.5)), ("ccr", (0.5, 2.5)), ("fertility_index", (0.5, 1.5)),
   ("ptat", (0.5, 1.5)), ("udc", (0.5, 1.2)), ("flc", (0.3, 1.0)),
   ("bwc", (0.0, 1.5)), ("feed_saved", (100, 80)), ("rfi", (0, 50)),
   ("sire_calving_ease", (2.5, 0.8)), ("daughter_calving_ease", (2.5, 0.6)),
   ("sire_stillbirth", (7.0, 2.0)), ("daughter_stillbirth", (6.0, 1.5)),
   ("mastitis", (100, 5)), ("metritis", (100, 3)), ("cow_livability", (2.0, 2.5)),
   ("heifer_livability", (1.0, 1.5))]

/-- `GeneticCalculator._get_variance`: squared population std, 1 by default. -/
def get_variance (index : String) : ℚ :=
  match qlookup population_stats index with
  | some st => st.2 ^ 2
  | Option.none => 1

/-- `GeneticCalculator._normalize_to_z`. -/
def normalize_to_z (index : String) (value : ℚ) : ℚ :=
  let st := (qlookup population_stats index).getD (0, 1)
  if st.2 = 0 then 0 else (value - st.1) / st.2

/-- `GeneticCalculator._interpret_pppv`: six qualitative tiers over the
z-score, sign-flipped for lower-is-better traits. -/
def interpret_pppv (index : String) (value : ℚ) : String :=
  let st := (qlookup population_stats index).getD (0, 1)
  let z0 := if st.2 > 0 then (value - st.1) / st.2 else 0
  let z := if index ∈ negative_indices then -z0 else z0
  if z ≥ 2 then "Excepcional"
  else if z ≥ 1 then "Muito Alto"
  else if z ≥ 0.5 then "Alto"
  else if z ≥ -0.5 then "Médio"
  else if z ≥ -1 then "Baixo"
  else "Muito Baixo"

/-! ## PPPV engine (`GeneticCalculator.calculate_pppv`)

The source also stores `std_dev = math.sqrt(msv)` and the 95% confidence
interval `pppv ± 1.96·std_dev`.  No downstream computation and no claim
reads those square-root-valued display fields, and they have no computable
rational counterpart, so the embedded result omits them (the variance they
derive from is kept). -/

/-- One trait's row of the `calculate_pppv` result dict. -/
structure PPPVResult where
  cow_value : ℚ
  bull_value : ℚ
  cow_reliability : ℚ
  bull_reliability : ℚ
  pppv : ℚ
  variance : ℚ
  combined_reliability : ℚ
  interpretation : String
deriving DecidableEq

/-- The PPPV weighting formula of `calculate_pppv` (before rounding):
reliability-weighted average when the reliabilities have positive sum,
plain midpoint otherwise. -/
def pppvRaw (bull_rel cow_rel bull_value cow_value : ℚ) : ℚ :=
  if bull_rel + cow_rel > 0 then
    (bull_rel * bull_value + cow_rel * cow_value) / (bull_rel + cow_rel)
  else (bull_value + cow_value) / 2

/-- The loop body of `calculate_pppv` for one trait whose dam and sire
values both resolved. -/
def mkPPPV (f b : Record) (index : String) (cow_value bull_value : ℚ) : PPPVResult :=
  let cow_rel := get_reliability f index false
  let bull_rel := get_reliability b index true
  let pppv := pppvRaw bull_rel cow_rel bull_value cow_value
  let h2 := (qlookup heritabilities index).getD 0.25
  let avg_parent_rel := (cow_rel + bull_rel) / 200
  let msv := 0.5 * (1 - 0.5 * avg_parent_rel) * h2 * get_variance index
  let combined_rel := (cow_rel + bull_rel) / 4 + 25
  { cow_value := roundTo 2 cow_value
    bull_value := roundTo 2 bull_value
    cow_reliability := roundTo 1 cow_rel
    bull_reliability := roundTo 1 bull_rel
    pppv := roundTo 2 pppv
    variance := roundTo 4 msv
    combined_reliability := roundTo 1 combined_rel
    interpretation := interpret_pppv index pppv }

/-- One iteration of `calculate_pppv`: `none` when either parent's value
fails to resolve (the trait is skipped). -/
def pppvEntry (f b : Record) (index : String) : Option PPPVResult :=
  match get_index_value f index, get_index_value b index with
  | some cv, some bv => some (mkPPPV f b index cv bv)
  | _, _ => Option.none

/-- The default trait list of `calculate_pppv`. -/
def default_pppv_indices : List String :=
  ["milk", "protein", "fat", "fat_percent", "protein_percent", "productive_life",
   "scs", "dpr", "fertility_index", "udc", "flc", "ptat", "net_merit", "tpi",
   "hcr", "ccr", "feed_saved", "rfi"]

/-- `GeneticCalculator.calculate_pppv` (the trait-keyed result dict as an
association list in iteration order; an empty `indices` argument selects
the default trait list, as Python's `if not indices:` does). -/
def calculate_pppv (f b : Record) (indices : List String) : List (String × PPPVResult) :=
  (if indices.isEmpty then default_pppv_indices else indices).filterMap
    (fun i => (pppvEntry f b i).map (fun e => (i, e)))

/-! ## Inbreeding analysis (`GeneticCalculator.calculate_inbreeding`) -/

/-- `GeneticCalculator._calculate_pedigree_inbreeding`: ancestor-overlap
coancestry detection with a 0.04 population-baseline `else` branch.  Note
that every branch assigns a positive coancestry, so the final
`if coancestry > 0` guard always passes and the function never returns
`None`. -/
def calculate_pedigree_inbreeding (female_data bull_data : Record) : Option ℚ :=
  let cow_sire := pyOr (rget female_data "sire_naab") (rget female_data "sire_reg")
  let cow_mgs := pyOr (rget female_data "mgs_naab") (rget female_data "mgs_reg")
  let bull_sire := pyOr (rget bull_data "sire_naab") (rget bull_data "sire_reg")
  let bull_mgs := pyOr (rget bull_data "mgs_naab") (rget bull_data "mgs_reg")
  let coancestry : ℚ :=
    if cow_sire.truthy ∧ Value.beq (rget bull_data "naab_code") cow_sire then 0.25
    else if cow_mgs.truthy ∧ Value.beq (rget bull_data "naab_code") cow_mgs then 0.125
    else if cow_sire.truthy ∧ bull_sire.truthy ∧ Value.beq cow_sire bull_sire then 0.125
    else if cow_mgs.truthy ∧ bull_mgs.truthy ∧ Value.beq cow_mgs bull_mgs then 0.0625
    else 0.04
  if coancestry > 0 then some (coancestry * 100) else Option.none

/-- Top-level key probe of `_get_haplotype_status`: strings map through
the Free/Carrier encodings, numbers return `Free` iff zero; anything
else (including a non-matching string) falls through to the next key. -/
def hapStatusTop : Value → Option String
  | .str s =>
    let u := s.toUpper
    if u = "T" ∨ u = "F" ∨ u = "FREE" ∨ u = "TESTED FREE" then some "Free"
    else if u = "C" ∨ u = "CARRIER" then some "Carrier"
    else Option.none
  | .num q => some (if q = 0 then "Free" else "Carrier")
  | _ => Option.none

/-- `genetic_data` key probe of `_get_haplotype_status`: compares
`str(value).upper()` against the Free/Carrier encodings — only string
values can match, since `str()` of a number or dict never renders to one
of those tokens. -/
def hapStatusGD : Value → Option String
  | .str s =>
    let u := s.toUpper
    if u = "T" ∨ u = "F" ∨ u = "FREE" then some "Free"
    else if u = "C" ∨ u = "CARRIER" then some "Carrier"
    else Option.none
  | _ => Option.none

/-- Probe a list of keys with a per-value classifier, returning the first
classification. -/
def firstStatus (cls : Value → Option String) (d : Record) : List String → Option String
  | [] => Option.none
  | k :: ks =>
    match cls (rget d k) with
    | some s => some s
    | Option.none => firstStatus cls d ks

/-- `GeneticCalculator._get_haplotype_status`. -/
def get_haplotype_status (data : Record) (haplotype : String) : String :=
  match firstStatus hapStatusTop data [haplotype, haplotype.toUpper, haplotype.toLower] with
  | some s => s
  | Option.none =>
    match firstStatus hapStatusGD (subDict data "genetic_data") [haplotype, haplotype.toUpper] with
    | some s => s
    | Option.none => "Unknown"

/-- One entry of the `_analyze_haplotypes` result list. -/
structure HaplotypeRisk where
  haplotype : String
  cow_status : String
  bull_status : String
  severity : String
  probability : String
  recommendation : String
deriving DecidableEq

/-- The fixed lethal-haplotype panel of `_analyze_haplotypes`. -/
def haplotypesPanel : List String := ["hh1", "hh2", "hh3", "hh4", "hh5", "hh6"]

/-- The loop body of `_analyze_haplotypes` for one haplotype: a
`critical` record when both parents are carriers, a `low` one when
exactly one is, nothing otherwise. -/
def hapRisk (female_data bull_data : Record) (hap : String) : Option HaplotypeRisk :=
  let cow_status := get_haplotype_status female_data hap
  let bull_status := get_haplotype_status bull_data hap
  if cow_status = "Carrier" ∧ bull_status = "Carrier" then
    some { haplotype := hap.toUpper, cow_status, bull_status,
           severity := "critical", probability := "25% letal",
           recommendation := "EVITAR - 25% chance de bezerro afetado por " ++ hap.toUpper }
  else if cow_status = "Carrier" ∨ bull_status = "Carrier" then
    let carrier := if cow_status = "Carrier" then "vaca" else "touro"
    some { haplotype := hap.toUpper, cow_status, bull_status,
           severity := "low", probability := "50% portador",
           recommendation := "Aceitável - " ++ carrier ++ " é portador de "
             ++ hap.toUpper ++ ", progênie pode ser portadora" }
  else Option.none

/-- `GeneticCalculator._analyze_haplotypes`. -/
def analyze_haplotypes (female_data bull_data : Record) : List HaplotypeRisk :=
  haplotypesPanel.filterMap (hapRisk female_data bull_data)

/-- `GeneticCalculator._classify_inbreeding_risk`. -/
def classify_inbreeding_risk (inbreeding : ℚ) : String :=
  if inbreeding < inbreeding_ideal then "Baixo"
  else if inbreeding < inbreeding_acceptable then "Moderado"
  else if inbreeding < inbreeding_warning then "Alto"
  else "Crítico"

/-- `GeneticCalculator._inbreeding_recommendation`. -/
def inbreeding_recommendation (inbreeding : ℚ) (haplotype_risks : List HaplotypeRisk) : String :=
  let critical_risks := haplotype_risks.filter (fun r => r.severity == "critical")
  if !critical_risks.isEmpty then
    let haps := String.intercalate ", " (critical_risks.map (fun r => r.haplotype))
    "❌ Acasalamento não recomendado - Risco letal de haplótipos (" ++ haps ++ ")"
  else if inbreeding < inbreeding_ideal then
    "✅ Acasalamento recomendado - Consanguinidade ideal"
  else if inbreeding < inbreeding_acceptable then
    "⚠️ Acasalamento aceitável - Monitorar progênie"
  else if inbreeding < inbreeding_warning then
    "⚠️ Atenção - Considerar alternativas se disponível"
  else "❌ Acasalamento não recomendado - Consanguinidade elevada"

/-- The expected-inbreeding estimate and estimation-method tag of
`calculate_inbreeding` (before display rounding): genomic when both
figures resolve, partial-genomic with a fixed baseline offset when one
does, else pedigree, else the fixed 8.5 conservative constant. -/
def inbreedingEstimate (female_data bull_data : Record) : ℚ × String :=
  match get_index_value female_data "genomic_inbreeding",
        get_index_value bull_data "gfi" with
  | some cow_ginb, some bull_gfi => (cow_ginb / 4 + bull_gfi / 2, "genomic")
  | some cow_ginb, Option.none => (cow_ginb / 4 + 4.0, "partial_genomic")
  | Option.none, some bull_gfi => (bull_gfi / 2 + 3.0, "partial_genomic")
  | Option.none, Option.none =>
    match calculate_pedigree_inbreeding female_data bull_data with
    | some pedigree_inb => (pedigree_inb, "pedigree")
    | Option.none => (8.5, "estimated")

/-- The `calculate_inbreeding` result dict (the `details` sub-dict is
inlined as the two `detail_*` fields; its `if cow_ginb` / `if bull_gfi`
guards are Python truthiness, so a resolved value of 0 is stored as
`None`). -/
structure InbreedingResult where
  expected_inbreeding : ℚ
  method : String
  risk_level : String
  acceptable : Bool
  detail_cow_ginb : Option ℚ
  detail_bull_gfi : Option ℚ
  haplotype_risks : List HaplotypeRisk
  recommendation : String
deriving DecidableEq

/-- `GeneticCalculator.calculate_inbreeding`. -/
def calculate_inbreeding (female_data bull_data : Record) : InbreedingResult :=
  let cow_ginb := get_index_value female_data "genomic_inbreeding"
  let bull_gfi := get_index_value bull_data "gfi"
  let est := inbreedingEstimate female_data bull_data
  let haplotype_risks := analyze_haplotypes female_data bull_data
  let acceptable := decide (est.1 ≤ inbreeding_acceptable)
    && !(haplotype_risks.any (fun r => r.severity == "critical"))
  { expected_inbreeding := roundTo 2 est.1
    method := est.2
    risk_level := classify_inbreeding_risk est.1
    acceptable
    detail_cow_ginb := match cow_ginb with
      | some v => if v ≠ 0 then some (roundTo 2 v) else Option.none
      | Option.none => Option.none
    detail_bull_gfi := match bull_gfi with
      | some v => if v ≠ 0 then some (roundTo 2 v) else Option.none
      | Option.none => Option.none
    haplotype_risks
    recommendation := inbreeding_recommendation est.1 haplotype_risks }

/-! ## Economic index engine (`GeneticCalculator.calculate_economic_index`) -/

/-- One row of a category's `indices` detail list. -/
structure IndexContribution where
  index : String
  pppv : ℚ
  z_score : ℚ
  weight : ℚ
  contribution : ℚ
deriving DecidableEq

/-- One entry of the `category_scores` dict. -/
structure CategoryScore where
  category : String
  score : ℚ
  weight : ℚ
  contribution : ℚ
  indices : List IndexContribution
deriving DecidableEq

/-- The inner trait loop of `calculate_economic_index` for one category:
the unrounded accumulated category score and the `indices_used` detail
rows, skipping traits absent from the PPPV data.  The z-score is computed
from the (already 2-decimal-rounded) stored PPPV and sign-flipped for
lower-is-better traits. -/
def categoryContribs (pppv_data : List (String × PPPVResult)) :
    List (String × ℚ) → ℚ × List IndexContribution
  | [] => (0, [])
  | (index, idx_weight) :: rest =>
    match qlookup pppv_data index with
    | Option.none => categoryContribs pppv_data rest
    | some e =>
      let z0 := normalize_to_z index e.pppv
      let z := if index ∈ negative_indices then -z0 else z0
      let contribution := idx_weight * z
      let tail := categoryContribs pppv_data rest
      (contribution + tail.1,
       { index, pppv := e.pppv, z_score := roundTo 2 z, weight := idx_weight,
         contribution := roundTo 3 contribution } :: tail.2)

/-- The outer category loop of `calculate_economic_index`: the
`category_scores` entries (in iteration order) and the unrounded
`total_score`.  A weight entry whose key is not a built-in category of
`index_weights` is skipped (`continue`). -/
def econCategories (pppv_data : List (String × PPPVResult)) :
    List (String × ℚ) → List CategoryScore × ℚ
  | [] => ([], 0)
  | (category, cat_weight) :: rest =>
    match qlookup index_weights category with
    | Option.none => econCategories pppv_data rest
    | some iw =>
      let cc := categoryContribs pppv_data iw
      let tail := econCategories pppv_data rest
      ({ category, score := roundTo 3 cc.1, weight := cat_weight,
         contribution := roundTo 3 (cc.1 * cat_weight), indices := cc.2 } :: tail.1,
       cc.1 * cat_weight + tail.2)

/-- `category_weights = custom_weights or self.params.category_weights`:
Python `or` falls back to the defaults when the custom mapping is `None`
or empty (an empty dict is falsy). -/
def resolveCategoryWeights (custom : Option (List (String × ℚ))) : List (String × ℚ) :=
  match custom with
  | some cw => if cw.isEmpty then category_weights_default else cw
  | Option.none => category_weights_default

/-- The union of all traits referenced by `index_weights`
(`list(set(all_indices))`; the embedding fixes first-occurrence order,
which no computed value depends on). -/
def econAllIndices : List String :=
  (index_weights.foldr (fun c acc => c.2.map Prod.fst ++ acc) []).eraseDups

/-- `GeneticCalculator._grade_iep`. -/
def grade_iep (score : ℚ) : String :=
  if score ≥ 85 then "A+ Excepcional"
  else if score ≥ 75 then "A Excelente"
  else if score ≥ 65 then "B+ Muito Bom"
  else if score ≥ 55 then "B Bom"
  else if score ≥ 45 then "C Médio"
  else if score ≥ 35 then "D Abaixo da Média"
  else "F Inadequado"

/-- The unrounded `total_score` of `calculate_economic_index`. -/
def econTotal (f b : Record) (custom : Option (List (String × ℚ))) : ℚ :=
  (econCategories (calculate_pppv f b econAllIndices) (resolveCategoryWeights custom)).2

/-- The `inbreeding_penalty` of `calculate_economic_index` (computed, as
the source does, from the 2-decimal-rounded `expected_inbreeding` entry of
the inbreeding result dict). -/
def econPenalty (f b : Record) : ℚ :=
  let inbreeding := (calculate_inbreeding f b).expected_inbreeding
  if inbreeding > inbreeding_ideal then
    inbreeding_penalty_lambda * (inbreeding - inbreeding_ideal)
  else 0

/-- The unrounded `raw_score` of `calculate_economic_index`. -/
def econRawScore (f b : Record) (custom : Option (List (String × ℚ))) : ℚ :=
  econTotal f b custom - econPenalty f b

/-- The unrounded `normalized_score` of `calculate_economic_index`:
`50 + raw_score * 15`, clamped into `[0, 100]`. -/
def econNormalized (f b : Record) (custom : Option (List (String × ℚ))) : ℚ :=
  max 0 (min 100 (50 + econRawScore f b custom * 15))

/-- The `calculate_economic_index` result dict. -/
structure EconResult where
  iep_raw : ℚ
  iep_normalized : ℚ
  base_score : ℚ
  inbreeding_penalty : ℚ
  grade : String
  categories : List CategoryScore
  inbreeding : InbreedingResult
  reliability : ℚ
deriving DecidableEq

/-- `GeneticCalculator.calculate_economic_index`. -/
def calculate_economic_index (f b : Record) (custom : Option (List (String × ℚ))) :
    EconResult :=
  let pppv_data := calculate_pppv f b econAllIndices
  let reliabilities := pppv_data.map (fun p => p.2.combined_reliability)
  { iep_raw := roundTo 3 (econRawScore f b custom)
    iep_normalized := roundTo 1 (econNormalized f b custom)
    base_score := roundTo 3 (econTotal f b custom)
    inbreeding_penalty := roundTo 3 (econPenalty f b)
    grade := grade_iep (econNormalized f b custom)
    categories := (econCategories pppv_data (resolveCategoryWeights custom)).1
    inbreeding := calculate_inbreeding f b
    reliability := roundTo 1
      (if reliabilities.isEmpty then 50 else reliabilities.sum / reliabilities.length) }

/-! ## Sire ranking (`GeneticCalculator.rank_bulls_for_female`) -/

/-- One (not yet ranked) entry of the `rankings` list built by
`rank_bulls_for_female`. -/
structure RankEntry where
  bull_id : Value
  bull_code : Value
  bull_name : Value
  bull_source : Value
  iep : ℚ
  grade : String
  inbreeding : ℚ
  inbreeding_risk : String
  categories : List (String × ℚ)
  reliability : ℚ
  full_analysis : EconResult

/-- A ranking entry after the 1-based `rank` field is attached. -/
structure RankedBull where
  rank : ℕ
  entry : RankEntry

/-- The dict appended to `rankings` for one surviving candidate sire. -/
def rankEntry (bull_data : Record) (iep_result : EconResult) : RankEntry :=
  { bull_id := rget bull_data "id"
    bull_code := rget bull_data "code"
    bull_name := rget bull_data "name"
    bull_source := rget bull_data "source"
    iep := iep_result.iep_normalized
    grade := iep_result.grade
    inbreeding := iep_result.inbreeding.expected_inbreeding
    inbreeding_risk := iep_result.inbreeding.risk_level
    categories := iep_result.categories.map (fun c => (c.category, c.score))
    reliability := iep_result.reliability
    full_analysis := iep_result }

/-- Stable insertion into a list sorted by descending `iep` (the new
entry goes before the first strictly smaller key and after equal keys'
earlier occupants — the stability Python's `list.sort` guarantees). -/
def insertDescIep (a : RankEntry) : List RankEntry → List RankEntry
  | [] => [a]
  | b :: l => if a.iep ≥ b.iep then a :: b :: l else b :: insertDescIep a l

/-- Stable sort by descending `iep`
(`rankings.sort(key=lambda x: x['iep'], reverse=True)`). -/
def sortDescIep : List RankEntry → List RankEntry
  | [] => []
  | a :: l => insertDescIep a (sortDescIep l)

/-- `for i, item in enumerate(rankings[:top_n], 1): item['rank'] = i`. -/
def assignRanks : ℕ → List RankEntry → List RankedBull
  | _, [] => []
  | i, e :: es => { rank := i, entry := e } :: assignRanks (i + 1) es

/-- `GeneticCalculator.rank_bulls_for_female` (source defaults:
`top_n = 10`, `max_inbreeding = 8.0`): filter candidates by the
inbreeding ceiling and by critical haplotype collisions, sort the
survivors by descending normalized IEP, attach 1-based ranks and truncate
to `top_n`. -/
def rank_bulls_for_female (female_data : Record) (bulls : List Record) (top_n : ℕ)
    (max_inbreeding : ℚ) (custom : Option (List (String × ℚ))) : List RankedBull :=
  let rankings := bulls.filterMap (fun bull_data =>
    let iep_result := calculate_economic_index female_data bull_data custom
    let inbreeding := iep_result.inbreeding.expected_inbreeding
    if inbreeding > max_inbreeding then Option.none
    else if !(iep_result.inbreeding.haplotype_risks.filter
        (fun r => r.severity == "critical")).isEmpty then Option.none
    else some (rankEntry bull_data iep_result))
  assignRanks 1 ((sortDescIep rankings).take top_n)

/-! ## Single-pair recommendation (`MatchingService._generate_recommendation`)

Inputs are the fields the source reads from its two dict arguments:
`compatibility['score']`, `compatibility['grade']`,
`compatibility.get('reliability', 60)` and the inbreeding dict's
`expected_inbreeding` and `haplotype_risks`. -/

/-- Python `f'{q:.1f}'`: fixed-point rendering at one decimal place. -/
def fmt1 (q : ℚ) : String :=
  let n := halfEven (q * 10)
  let sign := if n < 0 then "-" else ""
  sign ++ toString (n.natAbs / 10) ++ "." ++ toString (n.natAbs % 10)

/-- Python `f'{q:.0f}'`: fixed-point rendering at zero decimal places. -/
def fmt0 (q : ℚ) : String := toString (halfEven q)

/-- The recommendation dict returned by `_generate_recommendation`. -/
structure Recommendation where
  status : String
  message : String
  color : String
  positives : List String
  negatives : List String
  grade : String
  confidence : ℚ
deriving DecidableEq

/-- `MatchingService._generate_recommendation`. -/
def generate_recommendation (score : ℚ) (grade : String) (reliability : ℚ)
    (inb : ℚ) (haplotype_risks : List HaplotypeRisk) : Recommendation :=
  let critical_risks := haplotype_risks.filter (fun r => r.severity == "critical")
  let smc : String × String × String :=
    if !critical_risks.isEmpty then
      ("not_recommended", "❌ Acasalamento NÃO recomendado - Risco letal de haplótipos", "red")
    else if score ≥ 75 ∧ inb ≤ 6.0 then
      ("highly_recommended", "✅ Acasalamento altamente recomendado!", "green")
    else if score ≥ 60 ∧ inb ≤ 6.0 then
      ("recommended", "✅ Acasalamento recomendado", "blue")
    else if score ≥ 50 ∨ inb ≤ 8.0 then
      ("acceptable", "⚠️ Acasalamento aceitável - monitorar resultados", "yellow")
    else
      ("not_recommended", "❌ Acasalamento não recomendado - considerar outras opções", "red")
  let low_risk_haps := haplotype_risks.filter (fun r => r.severity == "low")
  let positives : List String :=
    (if score ≥ 70 then ["Excelente compatibilidade genética (IEP alto)"]
     else if score ≥ 55 then ["Boa compatibilidade genética"]
     else [])
    ++ (if inb ≤ 5.0 then ["Baixa consanguinidade (" ++ fmt1 inb ++ "%)"]
        else if inb ≤ 6.25 then ["Consanguinidade ideal (" ++ fmt1 inb ++ "%)"]
        else [])
    ++ (if haplotype_risks.isEmpty then ["Sem riscos de haplótipos detectados"]
        else if critical_risks.isEmpty ∧ !low_risk_haps.isEmpty then
          ["Baixo risco de haplótipos (um pai portador)"]
        else [])
  let negatives : List String :=
    (if score < 50 then ["Compatibilidade abaixo da média (IEP: " ++ fmt0 score ++ ")"]
     else [])
    ++ (if inb > 6.25 then ["Consanguinidade acima do ideal (" ++ fmt1 inb ++ "%)"] else [])
    ++ (if inb > 8.0 then ["Alto risco de depressão endogâmica"] else [])
    ++ critical_risks.map (fun r => "Risco crítico: " ++ r.haplotype ++ " (25% chance letal)")
  { status := smc.1, message := smc.2.1, color := smc.2.2, positives, negatives,
    grade, confidence := reliability }

/-! ## Lemmas about rounding -/

theorem halfEven_ge_floor (q : ℚ) : ⌊q⌋ ≤ halfEven q := by
  unfold halfEven; split_ifs <;> omega

theorem halfEven_le_floor_add_one (q : ℚ) : halfEven q ≤ ⌊q⌋ + 1 := by
  unfold halfEven; split_ifs <;> omega

theorem halfEven_intCast (m : ℤ) : halfEven (m : ℚ) = m := by
  unfold halfEven
  rw [Int.floor_intCast]
  norm_num

/-- Round-half-even is monotone. -/
theorem halfEven_mono {q r : ℚ} (h : q ≤ r) : halfEven q ≤ halfEven r := by
  rcases lt_or_le ⌊q⌋ ⌊r⌋ with hf | hf
  · have h1 := halfEven_le_floor_add_one q
    have h2 := halfEven_ge_floor r
    omega
  · have hfe : ⌊q⌋ = ⌊r⌋ := le_antisymm (Int.floor_le_floor h) hf
    unfold halfEven
    rw [hfe]
    split_ifs <;> first | omega | linarith

theorem roundTo_mono (n : ℕ) {q r : ℚ} (h : q ≤ r) : roundTo n q ≤ roundTo n r := by
  unfold roundTo
  have hpow : (0 : ℚ) < 10 ^ n := by positivity
  have hm : halfEven (q * 10 ^ n) ≤ halfEven (r * 10 ^ n) :=
    halfEven_mono (mul_le_mul_of_nonneg_right h (le_of_lt hpow))
  exact div_le_div_of_nonneg_right (by exact_mod_cast hm) (le_of_lt hpow)

theorem roundTo_intCast (n : ℕ) (m : ℤ) : roundTo n (m : ℚ) = m := by
  unfold roundTo
  have h : (m : ℚ) * 10 ^ n = ((m * 10 ^ n : ℤ) : ℚ) := by push_cast; ring
  rw [h, halfEven_intCast]
  have hpow : (10 : ℚ) ^ n ≠ 0 := by positivity
  push_cast
  field_simp

/-- Rounding keeps a value inside integer bounds. -/
theorem roundTo_bounds (n : ℕ) {q : ℚ} {a b : ℤ} (ha : (a : ℚ) ≤ q) (hb : q ≤ (b : ℚ)) :
    (a : ℚ) ≤ roundTo n q ∧ roundTo n q ≤ (b : ℚ) := by
  constructor
  · have := roundTo_mono n ha
    rwa [roundTo_intCast] at this
  · have := roundTo_mono n hb
    rwa [roundTo_intCast] at this

theorem roundTo_min (n : ℕ) (a b : ℚ) :
    roundTo n (min a b) = min (roundTo n a) (roundTo n b) := by
  rcases le_total a b with h | h
  · rw [min_eq_left h, min_eq_left (roundTo_mono n h)]
  · rw [min_eq_right h, min_eq_right (roundTo_mono n h)]

theorem roundTo_max (n : ℕ) (a b : ℚ) :
    roundTo n (max a b) = max (roundTo n a) (roundTo n b) := by
  rcases le_total a b with h | h
  · rw [max_eq_right h, max_eq_right (roundTo_mono n h)]
  · rw [max_eq_left h, max_eq_left (roundTo_mono n h)]

/-! ## Lemmas about the trait resolver -/

theorem tryKeys_eq (d : Record) (ks : List String) :
    tryKeys d ks = ((ks.map (rget d)).filterMap pyFloat).head? := by
  induction ks with
  | nil => rfl
  | cons k ks ih =>
    unfold tryKeys
    cases h : pyFloat (rget d k) with
    | none => simp [List.filterMap_cons, h, ih]
    | some v => simp [List.filterMap_cons, h]

/-- The restricted (plain-decimal) pipeline resolver coincides with the
head of its parseable probed values — the same first-hit shape as the
faithful resolver below, on the fragment the arithmetic pipeline uses. -/
theorem get_index_value_eq_specResolve (data : Record) (index : String) :
    get_index_value data index = specResolve data index := by
  simp only [get_index_value, specResolve, probedValues, tryKeys_eq, List.filterMap_append]
  cases hA : (((name_mapping index).map (rget data)).filterMap pyFloat) with
  | nil =>
    cases hB : (((name_mapping index).map
        (rget (subDict data "main_indices"))).filterMap pyFloat) with
    | nil => simp
    | cons b t => simp
  | cons a t => simp

theorem tryKeysFull_eq (d : Record) (ks : List String) :
    tryKeysFull d ks = ((ks.map (rget d)).filterMap pyFloatFull).head? := by
  induction ks with
  | nil => rfl
  | cons k ks ih =>
    unfold tryKeysFull
    cases h : pyFloatFull (rget d k) with
    | none => simp [List.filterMap_cons, h, ih]
    | some v => simp [List.filterMap_cons, h]

/-- `parsePyFloat` really covers the inputs the plain-decimal fragment
misses: exponent notation, whitespace and underscore separators, signed
infinities and NaN — while still rejecting malformed numerals. -/
theorem parsePyFloat_behaviour :
    parsePyFloat "inf" = some PyNum.posInf ∧
    parsePyFloat "-Infinity" = some PyNum.negInf ∧
    parsePyFloat "NaN" = some PyNum.nan ∧
    parsePyFloat "1e5" = some (PyNum.finite 100000) ∧
    parsePyFloat " 1_000.5 " = some (PyNum.finite 1000.5) ∧
    parsePyFloat "2.5e-2" = some (PyNum.finite 0.025) ∧
    parsePyFloat "abc" = Option.none ∧
    parsePyFloat "_1" = Option.none ∧
    parsePyFloat "1__2" = Option.none ∧
    parsePyFloat "1e" = Option.none ∧
    parsePyFloat "" = Option.none := by
  refine ⟨by decide, by decide, by decide, ?_, ?_, ?_, by decide, by decide, by decide,
    by decide, by decide⟩
  · norm_num +decide [parsePyFloat, digitsUnd, show '1'.toNat = 49 from by decide,
      show '5'.toNat = 53 from by decide]
  · norm_num +decide [parsePyFloat, digitsUnd, show '1'.toNat = 49 from by decide,
      show '0'.toNat = 48 from by decide, show '5'.toNat = 53 from by decide]
  · norm_num +decide [parsePyFloat, digitsUnd, show '2'.toNat = 50 from by decide,
      show '5'.toNat = 53 from by decide]

/-- **C8 (counterexample).** At the record `{"gfi": "inf"}` the
(faithfully embedded) resolver returns the parsed INFINITY — neither
`None` nor a finite number — although no probed location holds a value
that parses as a finite number: the claimed "Some(v) with v finite
exactly when a probed location parses as a finite number, None in every
other case" is false of the program. -/
theorem C8_infinite_value_counterexample :
    get_index_value_full [("gfi", Value.str "inf")] "gfi" = some PyNum.posInf ∧
    get_index_value_full [("gfi", Value.str "inf")] "gfi" ≠ Option.none ∧
    (∀ q : ℚ, get_index_value_full [("gfi", Value.str "inf")] "gfi" ≠
      some (PyNum.finite q)) ∧
    (∀ v ∈ probedValues [("gfi", Value.str "inf")] "gfi",
      ∀ q : ℚ, pyFloatFull v ≠ some (PyNum.finite q)) := by
  have h : get_index_value_full [("gfi", Value.str "inf")] "gfi" = some PyNum.posInf := by
    decide
  refine ⟨h, ?_, ?_, ?_⟩
  · rw [h]
    simp
  · intro q
    rw [h]
    simp
  · intro v hv q hcontra
    have hfm : (probedValues [("gfi", Value.str "inf")] "gfi").filterMap pyFloatFull =
        [PyNum.posInf] := by decide
    have hmem : PyNum.finite q ∈ (probedValues [("gfi", Value.str "inf")] "gfi").filterMap
        pyFloatFull := List.mem_filterMap.mpr ⟨v, hv, hcontra⟩
    rw [hfm] at hmem
    simp at hmem

/-- **C8 (amended).** The trait-value resolver never raises; it returns
exactly the first probed value — over the canonical key and aliases,
then the `main_indices` sub-dict, then the `genetic_data` sub-dict —
that SUCCESSFULLY CONVERTS under `float(...)`, whether the result is
finite, infinite or NaN; and it returns `None` exactly when no probed
location holds a convertible value. -/
theorem C8_trait_resolver_first_parsed (data : Record) (index : String) :
    get_index_value_full data index = specResolveFull data index ∧
    (get_index_value_full data index = Option.none ↔
      ∀ v ∈ probedValues data index, pyFloatFull v = Option.none) := by
  have heq : get_index_value_full data index = specResolveFull data index := by
    simp only [get_index_value_full, specResolveFull, probedValues, tryKeysFull_eq,
      List.filterMap_append]
    cases hA : (((name_mapping index).map (rget data)).filterMap pyFloatFull) with
    | nil =>
      cases hB : (((name_mapping index).map
          (rget (subDict data "main_indices"))).filterMap pyFloatFull) with
      | nil => simp
      | cons b t => simp
    | cons a t => simp
  refine ⟨heq, ?_⟩
  rw [heq]
  unfold specResolveFull
  rw [List.head?_eq_none_iff, List.filterMap_eq_nil_iff]

/-! ## Lemmas about the reliability resolver -/

theorem relFromValue_bounds {v : Value} {x : ℚ} (h : relFromValue v = some x) :
    0 ≤ x ∧ x ≤ 100 := by
  unfold relFromValue at h
  cases hp : pyFloat v with
  | none => rw [hp] at h; cases h
  | some val =>
    rw [hp] at h
    dsimp only at h
    split_ifs at h with hr
    cases h
    exact hr

theorem tryRelKeys_bounds {d : Record} {ks : List String} {x : ℚ}
    (h : tryRelKeys d ks = some x) : 0 ≤ x ∧ x ≤ 100 := by
  induction ks with
  | nil => cases h
  | cons k ks ih =>
    unfold tryRelKeys at h
    cases hr : relFromValue (rget d k) with
    | none => rw [hr] at h; exact ih h
    | some v => rw [hr] at h; cases h; exact relFromValue_bounds hr

theorem storedRel_bounds {d : Record} {i : String} {x : ℚ}
    (h : storedRel d i = some x) : 0 ≤ x ∧ x ≤ 100 := by
  simp only [storedRel] at h
  cases h1 : relFromValue (rget d (i ++ "_rel")) with
  | some v => simp [h1] at h; subst h; exact relFromValue_bounds h1
  | none =>
    simp only [h1] at h
    cases h2 : relFromValue (pyOr (rget (subDict d "reliabilities") (i ++ "_rel"))
        (rget (subDict d "reliabilities") i)) with
    | some v => simp [h2] at h; subst h; exact relFromValue_bounds h2
    | none => simp only [h2] at h; exact tryRelKeys_bounds h

theorem daughtersRel_cases {d : Record} {v : ℚ} (h : daughtersRel d = some v) :
    v = 75 ∨ v = 80 ∨ v = 85 ∨ v = 95 ∨ v = 99 := by
  simp only [daughtersRel] at h
  split at h
  · split at h
    · split_ifs at h <;> (cases h; tauto)
    · cases h
  · cases h

/-- `_get_reliability` decomposes as: the explicitly stored in-range
reliability when one exists, else the daughter-count inference for sires,
else the role default. -/
theorem get_reliability_eq (data : Record) (index : String) (is_bull : Bool) :
    get_reliability data index is_bull =
      match storedRel data index with
      | some v => v
      | Option.none =>
        if is_bull then (daughtersRel data).getD default_bull_reliability
        else default_cow_reliability := by
  simp only [get_reliability, reliabilityAfterDirect, storedRel]
  cases h1 : relFromValue (rget data (index ++ "_rel")) with
  | some v => simp [h1]
  | none =>
    simp only [h1]
    cases h2 : relFromValue (pyOr (rget (subDict data "reliabilities") (index ++ "_rel"))
        (rget (subDict data "reliabilities") index)) with
    | some v => simp [h2]
    | none => simp only [h2]

theorem get_reliability_bounds (data : Record) (index : String) (is_bull : Bool) :
    0 ≤ get_reliability data index is_bull ∧ get_reliability data index is_bull ≤ 100 := by
  rw [get_reliability_eq]
  cases hs : storedRel data index with
  | some v => exact storedRel_bounds hs
  | none =>
    dsimp only
    cases is_bull with
    | false => norm_num [default_cow_reliability]
    | true =>
      cases hd : daughtersRel data with
      | none => norm_num [default_bull_reliability]
      | some v =>
        rcases daughtersRel_cases hd with h | h | h | h | h <;>
          simp [h] <;> norm_num

/-- **C10.** The resolved reliability always lies in `[0, 100]`; a
directly stored reliability value that parses but falls outside
`[0, 100]` is ignored (not clamped) and the lookup falls through to the
later sources; the sire daughter-count step function only ever yields
75, 80, 85, 95 or 99; and when no explicitly stored reliability is
accepted the result is the daughter-count inference for sires and
ultimately the role default (75 for sires, 55 for dams). -/
theorem C10_reliability_resolver (data : Record) (index : String) (is_bull : Bool) :
    (0 ≤ get_reliability data index is_bull ∧ get_reliability data index is_bull ≤ 100) ∧
    (∀ x : ℚ, pyFloat (rget data (index ++ "_rel")) = some x → (x < 0 ∨ 100 < x) →
      get_reliability data index is_bull = reliabilityAfterDirect data index is_bull) ∧
    (∀ v : ℚ, daughtersRel data = some v → v = 75 ∨ v = 80 ∨ v = 85 ∨ v = 95 ∨ v = 99) ∧
    (storedRel data index = Option.none →
      get_reliability data index is_bull =
        if is_bull then (daughtersRel data).getD default_bull_reliability
        else default_cow_reliability) := by
  refine ⟨get_reliability_bounds data index is_bull, ?_, ?_, ?_⟩
  · intro x hx hout
    have hnone : relFromValue (rget data (index ++ "_rel")) = Option.none := by
      unfold relFromValue
      rw [hx]
      dsimp only
      rw [if_neg]
      rintro ⟨h0, h100⟩
      rcases hout with h | h <;> linarith
    simp only [get_reliability, hnone]
  · intro v hv
    exact daughtersRel_cases hv
  · intro hs
    rw [get_reliability_eq, hs]

/-- Concrete check for the fall-through conjunct of C10: a stored
`milk_rel` of 150 is out of range, so the dam default 55 applies. -/
theorem C10_reliability_resolver_witness :
    get_reliability [("milk_rel", Value.num 150)] "milk" false =
      reliabilityAfterDirect [("milk_rel", Value.num 150)] "milk" false ∧
    get_reliability [("milk_rel", Value.num 150)] "milk" false = 55 :=
  ⟨(C10_reliability_resolver [("milk_rel", Value.num 150)] "milk" false).2.1 150
      (by decide) (by norm_num),
   by decide⟩

/-! ## Lemmas about the PPPV engine -/

/-- The dam record of the spec's Scenario A:
`{milk: 500, net_merit: 400}`, no stored reliability (the dam default 55
applies). -/
def scenarioDam : Record := [("milk", Value.num 500), ("net_merit", Value.num 400)]

/-- The sire record of the spec's Scenario A:
`{milk: 1500, net_merit: 700}` with a stored milk reliability of 99. -/
def scenarioSire : Record :=
  [("milk", Value.num 1500), ("net_merit", Value.num 700), ("milk_rel", Value.num 99)]

/-- A reliability-weighted average with non-negative weights stays within
the two parent values. -/
theorem pppvRaw_mem (rs rd sv dv : ℚ) (hrs : 0 ≤ rs) (hrd : 0 ≤ rd) :
    min dv sv ≤ pppvRaw rs rd sv dv ∧ pppvRaw rs rd sv dv ≤ max dv sv := by
  unfold pppvRaw
  split_ifs with hpos
  · constructor
    · rw [le_div_iff₀ hpos]
      nlinarith [mul_nonneg hrs (sub_nonneg.mpr (min_le_right dv sv)),
        mul_nonneg hrd (sub_nonneg.mpr (min_le_left dv sv))]
    · rw [div_le_iff₀ hpos]
      nlinarith [mul_nonneg hrs (sub_nonneg.mpr (le_max_right dv sv)),
        mul_nonneg hrd (sub_nonneg.mpr (le_max_left dv sv))]
  · constructor
    · have h1 := min_le_left dv sv
      have h2 := min_le_right dv sv
      linarith
    · have h1 := le_max_left dv sv
      have h2 := le_max_right dv sv
      linarith

/-- With equal weights the PPPV is the plain parent midpoint. -/
theorem pppvRaw_equal_weights (r sv dv : ℚ) : pppvRaw r r sv dv = (dv + sv) / 2 := by
  unfold pppvRaw
  split_ifs with hpos
  · have hr : r + r ≠ 0 := ne_of_gt hpos
    field_simp
    ring
  · ring

/-- **C3.** For every trait where both dam and sire values resolve, the
stored PPPV is the 2-decimal rounding of the reliability-weighted average
`(r_s·sire + r_d·dam)/(r_s + r_d)` whenever `r_s + r_d > 0`, and of the
unweighted midpoint when both reliabilities are zero; and in the spec's
Scenario A (dam milk 500 at reliability 55, sire milk 1500 at reliability
99) the milk PPPV is `(99·1500 + 55·500)/154`, stored as 1142.86 ≈ 1143. -/
theorem C3_pppv_reliability_weighted (f b : Record) (index : String) (dv sv : ℚ)
    (hf : get_index_value f index = some dv)
    (hb : get_index_value b index = some sv) :
    pppvEntry f b index = some (mkPPPV f b index dv sv) ∧
    (mkPPPV f b index dv sv).pppv =
      roundTo 2 (pppvRaw (get_reliability b index true) (get_reliability f index false) sv dv) ∧
    (get_reliability b index true + get_reliability f index false > 0 →
      pppvRaw (get_reliability b index true) (get_reliability f index false) sv dv =
        (get_reliability b index true * sv + get_reliability f index false * dv) /
          (get_reliability b index true + get_reliability f index false)) ∧
    (get_reliability b index true = 0 ∧ get_reliability f index false = 0 →
      pppvRaw (get_reliability b index true) (get_reliability f index false) sv dv =
        (dv + sv) / 2) ∧
    (qlookup (calculate_pppv scenarioDam scenarioSire []) "milk").map PPPVResult.pppv =
      some (roundTo 2 ((99 * 1500 + 55 * 500) / 154)) ∧
    roundTo 2 ((99 * 1500 + 55 * 500) / 154 : ℚ) = 1142.86 := by
  refine ⟨by simp [pppvEntry, hf, hb], rfl, ?_, ?_, ?_, ?_⟩
  · intro hpos
    unfold pppvRaw
    rw [if_pos hpos]
  · rintro ⟨hb0, hf0⟩
    rw [hb0, hf0, pppvRaw_equal_weights]
  · norm_num +decide [calculate_pppv, default_pppv_indices, pppvEntry, mkPPPV, pppvRaw,
      get_index_value, name_mapping, tryKeys, rget, qlookup, subDict, pyFloat,
      get_reliability, reliabilityAfterDirect, storedRel, relFromValue, tryRelKeys,
      pyOr, daughtersRel, Value.truthy, scenarioDam, scenarioSire, roundTo, halfEven,
      default_cow_reliability, default_bull_reliability]
  · norm_num [roundTo, halfEven]

/-- Scenario A instantiates C3: both parent milk values resolve and the
produced entry is the one the theorem describes. -/
theorem C3_pppv_reliability_weighted_witness :
    pppvEntry scenarioDam scenarioSire "milk" =
      some (mkPPPV scenarioDam scenarioSire "milk" 500 1500) :=
  (C3_pppv_reliability_weighted scenarioDam scenarioSire "milk" 500 1500
    (by decide) (by decide)).1

/-- **C7.** For every trait where both parent values resolve and the two
resolved reliabilities are non-negative, the PPPV lies within
`[min(dam, sire), max(dam, sire)]` — both before rounding and after the
engine's 2-decimal rounding, taking the parent values as also rounded —
and when the two reliabilities are equal it is the plain parent mean. -/
theorem C7_pppv_between_parents (f b : Record) (index : String) (dv sv : ℚ)
    (hf : get_index_value f index = some dv)
    (hb : get_index_value b index = some sv)
    (hrd : 0 ≤ get_reliability f index false)
    (hrs : 0 ≤ get_reliability b index true) :
    pppvEntry f b index = some (mkPPPV f b index dv sv) ∧
    min dv sv ≤ pppvRaw (get_reliability b index true) (get_reliability f index false) sv dv ∧
    pppvRaw (get_reliability b index true) (get_reliability f index false) sv dv ≤ max dv sv ∧
    min (mkPPPV f b index dv sv).cow_value (mkPPPV f b index dv sv).bull_value ≤
      (mkPPPV f b index dv sv).pppv ∧
    (mkPPPV f b index dv sv).pppv ≤
      max (mkPPPV f b index dv sv).cow_value (mkPPPV f b index dv sv).bull_value ∧
    (get_reliability f index false = get_reliability b index true →
      pppvRaw (get_reliability b index true) (get_reliability f index false) sv dv =
        (dv + sv) / 2) := by
  have hmem := pppvRaw_mem (get_reliability b index true)
    (get_reliability f index false) sv dv hrs hrd
  have hcv : (mkPPPV f b index dv sv).cow_value = roundTo 2 dv := rfl
  have hbv : (mkPPPV f b index dv sv).bull_value = roundTo 2 sv := rfl
  have hpv : (mkPPPV f b index dv sv).pppv =
      roundTo 2 (pppvRaw (get_reliability b index true) (get_reliability f index false) sv dv) :=
    rfl
  refine ⟨by simp [pppvEntry, hf, hb], hmem.1, hmem.2, ?_, ?_, ?_⟩
  · rw [hcv, hbv, hpv, ← roundTo_min]
    exact roundTo_mono 2 hmem.1
  · rw [hcv, hbv, hpv, ← roundTo_max]
    exact roundTo_mono 2 hmem.2
  · intro heq
    rw [← heq, pppvRaw_equal_weights]

/-- Scenario A instantiates C7 (the resolved reliabilities 55 and 99 are
non-negative). -/
theorem C7_pppv_between_parents_witness :
    pppvEntry scenarioDam scenarioSire "milk" =
      some (mkPPPV scenarioDam scenarioSire "milk" 500 1500) ∧
    min (500 : ℚ) 1500 ≤
      pppvRaw (get_reliability scenarioSire "milk" true)
        (get_reliability scenarioDam "milk" false) 1500 500 :=
  ⟨(C7_pppv_between_parents scenarioDam scenarioSire "milk" 500 1500
      (by decide) (by decide) (by decide) (by decide)).1,
   (C7_pppv_between_parents scenarioDam scenarioSire "milk" 500 1500
      (by decide) (by decide) (by decide) (by decide)).2.1⟩

/-! ## Claims about the economic index and the inbreeding analyzer -/

/-- **C4.** For every dam record, sire record and supplied category-weight
mapping, the normalized economic-index score is
`clamp(50 + raw_score·15, 0, 100)`, so it always lies in `[0, 100]`; and
the stored 1-decimal-rounded `iep_normalized` field stays in `[0, 100]`
too. -/
theorem C4_normalized_score_bounded (f b : Record) (cw : Option (List (String × ℚ))) :
    econNormalized f b cw = max 0 (min 100 (50 + econRawScore f b cw * 15)) ∧
    0 ≤ econNormalized f b cw ∧ econNormalized f b cw ≤ 100 ∧
    (calculate_economic_index f b cw).iep_normalized = roundTo 1 (econNormalized f b cw) ∧
    0 ≤ (calculate_economic_index f b cw).iep_normalized ∧
    (calculate_economic_index f b cw).iep_normalized ≤ 100 := by
  have h0 : (0 : ℚ) ≤ econNormalized f b cw := le_max_left _ _
  have h100 : econNormalized f b cw ≤ 100 :=
    max_le (by norm_num) (min_le_left _ _)
  have hb := roundTo_bounds 1 (a := 0) (b := 100)
    (q := econNormalized f b cw) (by exact_mod_cast h0) (by exact_mod_cast h100)
  refine ⟨rfl, h0, h100, rfl, ?_, ?_⟩
  · exact_mod_cast hb.1
  · exact_mod_cast hb.2

/-- **C1.** The inbreeding result is acceptable exactly when the expected
inbreeding estimate is at most the acceptable threshold 8.0 AND no
haplotype risk record is `critical`; in particular, whenever dam and sire
are both `Carrier` for the same panel haplotype, a `critical` risk record
for that haplotype is produced and acceptability is false — whatever the
numeric estimate, including 0. -/
theorem C1_acceptable_iff (f b : Record) :
    ((calculate_inbreeding f b).acceptable = true ↔
      ((inbreedingEstimate f b).1 ≤ inbreeding_acceptable ∧
        ∀ r ∈ (calculate_inbreeding f b).haplotype_risks, r.severity ≠ "critical")) ∧
    (∀ hap ∈ haplotypesPanel,
      get_haplotype_status f hap = "Carrier" → get_haplotype_status b hap = "Carrier" →
      ((∃ r ∈ (calculate_inbreeding f b).haplotype_risks,
          r.haplotype = hap.toUpper ∧ r.severity = "critical") ∧
        (calculate_inbreeding f b).acceptable = false)) := by
  have hrisks : (calculate_inbreeding f b).haplotype_risks = analyze_haplotypes f b := rfl
  have hacc : (calculate_inbreeding f b).acceptable =
      (decide ((inbreedingEstimate f b).1 ≤ inbreeding_acceptable) &&
        !((analyze_haplotypes f b).any (fun r => r.severity == "critical"))) := rfl
  constructor
  · rw [hacc, hrisks]
    simp only [Bool.and_eq_true, decide_eq_true_eq, Bool.not_eq_true',
      List.any_eq_false, beq_iff_eq]
  · intro hap hmem hcf hcb
    have hr : hapRisk f b hap = some
        { haplotype := hap.toUpper, cow_status := "Carrier", bull_status := "Carrier",
          severity := "critical", probability := "25% letal",
          recommendation := "EVITAR - 25% chance de bezerro afetado por " ++ hap.toUpper } := by
      simp [hapRisk, hcf, hcb]
    have hmem' : _ ∈ analyze_haplotypes f b := List.mem_filterMap.mpr ⟨hap, hmem, hr⟩
    refine ⟨⟨_, by rw [hrisks]; exact hmem', rfl, rfl⟩, ?_⟩
    rw [hacc]
    have hany : (analyze_haplotypes f b).any (fun r => r.severity == "critical") = true :=
      List.any_eq_true.mpr ⟨_, hmem', by simp⟩
    rw [hany]
    simp

theorem filter_isEmpty_eq_not_any {α : Type} (p : α → Bool) (l : List α) :
    (l.filter p).isEmpty = !l.any p := by
  induction l with
  | nil => rfl
  | cons a t ih =>
    cases h : p a <;> simp [List.filter_cons, h, ih]

/-- **C6.** The single-pair recommendation status follows the fixed
priority chain: a critical haplotype collision forces
`not_recommended`; otherwise score ≥ 75 with inbreeding ≤ 6.0 gives
`highly_recommended`; otherwise score ≥ 60 with inbreeding ≤ 6.0 gives
`recommended`; otherwise score ≥ 50 or inbreeding ≤ 8.0 gives
`acceptable`; otherwise `not_recommended`. -/
theorem C6_recommendation_status (score : ℚ) (grade : String) (reliability inb : ℚ)
    (risks : List HaplotypeRisk) :
    (generate_recommendation score grade reliability inb risks).status =
      (if risks.any (fun r => r.severity == "critical") then "not_recommended"
       else if score ≥ 75 ∧ inb ≤ 6.0 then "highly_recommended"
       else if score ≥ 60 ∧ inb ≤ 6.0 then "recommended"
       else if score ≥ 50 ∨ inb ≤ 8.0 then "acceptable"
       else "not_recommended") := by
  simp only [generate_recommendation, filter_isEmpty_eq_not_any, Bool.not_not]
  split_ifs <;> rfl

/-! ## C5: the conservative fallback is unreachable

The claim says two records with no genomic figures and no pedigree fields
get the fixed 8.5 `estimated` fallback.  In the source,
`_calculate_pedigree_inbreeding`'s `else` branch assigns the positive
population-baseline coancestry 0.04, so it always returns `4.0` at
minimum and the `estimated` branch of `calculate_inbreeding` is dead
code: two empty records get `4.0` with method `pedigree`. -/

/-- **C5 (counterexample).** For two empty records the result is the 4.0
pedigree baseline, not the 8.5 `estimated` fallback the claim states. -/
theorem C5_empty_records_counterexample :
    (calculate_inbreeding [] []).method = "pedigree" ∧
    (calculate_inbreeding [] []).expected_inbreeding = 4 ∧
    ¬((calculate_inbreeding [] []).method = "estimated" ∨
      (calculate_inbreeding [] []).expected_inbreeding = 8.5) := by
  have hm : (calculate_inbreeding [] []).method = "pedigree" := by
    show (inbreedingEstimate [] []).2 = "pedigree"
    norm_num +decide [inbreedingEstimate, get_index_value, name_mapping, tryKeys,
      rget, qlookup, subDict, pyFloat, calculate_pedigree_inbreeding, pyOr,
      Value.truthy, Value.beq]
  have he : (calculate_inbreeding [] []).expected_inbreeding = 4 := by
    show roundTo 2 (inbreedingEstimate [] []).1 = 4
    norm_num +decide [inbreedingEstimate, get_index_value, name_mapping, tryKeys,
      rget, qlookup, subDict, pyFloat, calculate_pedigree_inbreeding, pyOr,
      Value.truthy, Value.beq, roundTo, halfEven]
  refine ⟨hm, he, ?_⟩
  rintro (h | h)
  · rw [hm] at h
    exact absurd h (by decide)
  · rw [he] at h
    norm_num at h

/-- **C5 (amended).** For dam and sire records carrying no genomic
figure and no (truthy) dam-side pedigree reference, `calculate_inbreeding`
returns expected inbreeding 4.0 — the 0.04 baseline coancestry × 100 —
with method `pedigree`; the pedigree step never returns `None`, so the
8.5 `estimated` fallback is unreachable for every input. -/
theorem C5_no_data_baseline (f b : Record)
    (h1 : get_index_value f "genomic_inbreeding" = Option.none)
    (h2 : get_index_value b "gfi" = Option.none)
    (h3 : (pyOr (rget f "sire_naab") (rget f "sire_reg")).truthy = false)
    (h4 : (pyOr (rget f "mgs_naab") (rget f "mgs_reg")).truthy = false) :
    (calculate_inbreeding f b).method = "pedigree" ∧
    (calculate_inbreeding f b).expected_inbreeding = 4 ∧
    calculate_pedigree_inbreeding f b = some 4 ∧
    (∀ f' b' : Record, (calculate_pedigree_inbreeding f' b').isSome = true) := by
  have hped : calculate_pedigree_inbreeding f b = some 4 := by
    simp only [calculate_pedigree_inbreeding, h3, h4]
    norm_num
  have hest : inbreedingEstimate f b = (4, "pedigree") := by
    simp [inbreedingEstimate, h1, h2, hped]
  refine ⟨?_, ?_, hped, ?_⟩
  · show (inbreedingEstimate f b).2 = "pedigree"
    rw [hest]
  · show roundTo 2 (inbreedingEstimate f b).1 = 4
    rw [hest]
    have h44 : ((4 : ℤ) : ℚ) = (4 : ℚ) := by norm_num
    rw [← h44, roundTo_intCast]
  · intro f' b'
    simp only [calculate_pedigree_inbreeding]
    split_ifs <;> first | rfl | (norm_num at *)

/-- Two empty records instantiate the amended C5. -/
theorem C5_no_data_baseline_witness :
    (calculate_inbreeding [] []).method = "pedigree" :=
  (C5_no_data_baseline [] [] (by decide) (by decide) (by decide) (by decide)).1

/-! ## C9: custom category weights

`category_weights = custom_weights or defaults` — Python `or`, so an
EMPTY supplied mapping is falsy and silently falls back to the defaults,
against the claim; a non-empty mapping does replace them entirely. -/

theorem econCategories_map (pppv : List (String × PPPVResult)) (ws : List (String × ℚ)) :
    (econCategories pppv ws).1.map (fun c => c.category) =
      (ws.map Prod.fst).filter (fun c => (qlookup index_weights c).isSome) := by
  induction ws with
  | nil => rfl
  | cons cwt rest ih =>
    obtain ⟨category, cat_weight⟩ := cwt
    unfold econCategories
    cases h : qlookup index_weights category with
    | none => simp [h, ih, List.filter_cons]
    | some iw => simp [h, ih, List.filter_cons]

theorem categoryContribs_weight_mem (pppv : List (String × PPPVResult))
    (iw : List (String × ℚ)) :
    ∀ ic ∈ (categoryContribs pppv iw).2, (ic.index, ic.weight) ∈ iw := by
  induction iw with
  | nil => intro ic h; simp [categoryContribs] at h
  | cons p rest ih =>
    obtain ⟨index, w⟩ := p
    intro ic hic
    unfold categoryContribs at hic
    cases h : qlookup pppv index with
    | none =>
      rw [h] at hic
      exact List.mem_cons_of_mem _ (ih ic hic)
    | some e =>
      rw [h] at hic
      dsimp only at hic
      rcases List.mem_cons.mp hic with heq | hmem
      · subst heq
        exact List.mem_cons_self _ _
      · exact List.mem_cons_of_mem _ (ih ic hmem)

theorem econCategories_trait_weights (pppv : List (String × PPPVResult))
    (ws : List (String × ℚ)) :
    ∀ c ∈ (econCategories pppv ws).1, ∀ ic ∈ c.indices,
      (ic.index, ic.weight) ∈ (qlookup index_weights c.category).getD [] := by
  induction ws with
  | nil => intro c h; simp [econCategories] at h
  | cons cwt rest ih =>
    obtain ⟨category, cat_weight⟩ := cwt
    intro c hc
    unfold econCategories at hc
    cases h : qlookup index_weights category with
    | none =>
      rw [h] at hc
      exact ih c hc
    | some iw =>
      rw [h] at hc
      dsimp only at hc
      rcases List.mem_cons.mp hc with heq | hmem
      · subst heq
        intro ic hic
        dsimp only at hic ⊢
        rw [h]
        exact categoryContribs_weight_mem pppv iw ic hic
      · exact ih c hmem

/-- **C9 (counterexample).** An empty custom mapping does NOT replace the
defaults: with `custom_weights = {}` every category — `production`
included, though absent from the mapping — is still evaluated, because
Python's `or` treats the empty dict as falsy. -/
theorem C9_empty_mapping_counterexample :
    (calculate_economic_index scenarioDam scenarioSire (some [])).categories.map
        (fun c => c.category) =
      ["production", "health", "fertility", "type", "efficiency", "calving"] ∧
    "production" ∈ (calculate_economic_index scenarioDam scenarioSire (some [])).categories.map
        (fun c => c.category) ∧
    "production" ∉ ([] : List (String × ℚ)).map Prod.fst := by
  have hcats : (calculate_economic_index scenarioDam scenarioSire (some [])).categories =
      (econCategories (calculate_pppv scenarioDam scenarioSire econAllIndices)
        category_weights_default).1 := rfl
  have hmap := econCategories_map
    (calculate_pppv scenarioDam scenarioSire econAllIndices) category_weights_default
  have hfil : (category_weights_default.map Prod.fst).filter
      (fun c => (qlookup index_weights c).isSome) =
      ["production", "health", "fertility", "type", "efficiency", "calving"] := by decide
  refine ⟨?_, ?_, by decide⟩
  · rw [hcats, hmap, hfil]
  · rw [hcats, hmap, hfil]
    decide

/-- **C9 (amended).** A NON-EMPTY custom category-weight mapping
entirely replaces the default category weights: the evaluated categories
are exactly the mapping's keys that name a built-in category (unknown
keys are silently skipped), and every per-trait weight used still comes
from the engine's built-in per-category table, never from the custom
mapping.  (An empty mapping is falsy under Python `or` and the defaults
apply instead.) -/
theorem C9_custom_weights_replace (f b : Record) (cw : List (String × ℚ)) (hne : cw ≠ []) :
    resolveCategoryWeights (some cw) = cw ∧
    ((calculate_economic_index f b (some cw)).categories.map (fun c => c.category) =
      (cw.map Prod.fst).filter (fun c => (qlookup index_weights c).isSome)) ∧
    (∀ c ∈ (calculate_economic_index f b (some cw)).categories, ∀ ic ∈ c.indices,
      (ic.index, ic.weight) ∈ (qlookup index_weights c.category).getD []) := by
  have hres : resolveCategoryWeights (some cw) = cw := by
    simp [resolveCategoryWeights, hne]
  have hcats : (calculate_economic_index f b (some cw)).categories =
      (econCategories (calculate_pppv f b econAllIndices) cw).1 := by
    show (econCategories (calculate_pppv f b econAllIndices)
      (resolveCategoryWeights (some cw))).1 = _
    rw [hres]
  refine ⟨hres, ?_, ?_⟩
  · rw [hcats, econCategories_map]
  · rw [hcats]
    exact econCategories_trait_weights _ _

/-- A one-category custom mapping instantiates the amended C9. -/
theorem C9_custom_weights_replace_witness :
    resolveCategoryWeights (some [("production", 1)]) = [("production", 1)] :=
  (C9_custom_weights_replace [] [] [("production", 1)] (by decide)).1

/-! ## C2: the sire ranking -/

theorem mem_insertDescIep {a x : RankEntry} {l : List RankEntry} :
    x ∈ insertDescIep a l ↔ x = a ∨ x ∈ l := by
  induction l with
  | nil => simp [insertDescIep]
  | cons b t ih =>
    unfold insertDescIep
    split_ifs with h
    · simp [List.mem_cons]
    · simp only [List.mem_cons, ih]
      tauto

theorem insertDescIep_sorted (a : RankEntry) (l : List RankEntry)
    (h : l.Pairwise (fun x y => y.iep ≤ x.iep)) :
    (insertDescIep a l).Pairwise (fun x y => y.iep ≤ x.iep) := by
  induction l with
  | nil => simp [insertDescIep]
  | cons b t ih =>
    rw [List.pairwise_cons] at h
    unfold insertDescIep
    split_ifs with hab
    · rw [List.pairwise_cons]
      refine ⟨?_, List.pairwise_cons.mpr h⟩
      intro y hy
      rcases List.mem_cons.mp hy with rfl | hyt
      · exact hab
      · exact le_trans (h.1 y hyt) hab
    · rw [List.pairwise_cons]
      refine ⟨?_, ih h.2⟩
      intro y hy
      rcases mem_insertDescIep.mp hy with rfl | hyt
      · exact le_of_lt (lt_of_not_ge hab)
      · exact h.1 y hyt

theorem sortDescIep_sorted (l : List RankEntry) :
    (sortDescIep l).Pairwise (fun x y => y.iep ≤ x.iep) := by
  induction l with
  | nil => simp [sortDescIep]
  | cons a t ih => exact insertDescIep_sorted a _ ih

theorem mem_sortDescIep {x : RankEntry} {l : List RankEntry} :
    x ∈ sortDescIep l ↔ x ∈ l := by
  induction l with
  | nil => simp [sortDescIep]
  | cons a t ih =>
    unfold sortDescIep
    rw [mem_insertDescIep, List.mem_cons, ih]

theorem assignRanks_length (i : ℕ) (l : List RankEntry) :
    (assignRanks i l).length = l.length := by
  induction l generalizing i with
  | nil => rfl
  | cons e t ih => simp [assignRanks, ih]

theorem assignRanks_rank (i : ℕ) (l : List RankEntry) :
    ∀ k (h : k < (assignRanks i l).length), ((assignRanks i l).get ⟨k, h⟩).rank = i + k := by
  induction l generalizing i with
  | nil => intro k h; simp [assignRanks] at h
  | cons e t ih =>
    intro k h
    cases k with
    | zero => simp [assignRanks]
    | succ k =>
      have h' : k < (assignRanks (i + 1) t).length := by
        have := h
        simp [assignRanks] at this
        simpa [assignRanks_length] using this
      have hrec := ih (i + 1) k h'
      simp only [assignRanks, List.get_cons_succ]
      rw [hrec]
      omega

theorem assignRanks_entry_mem (i : ℕ) (l : List RankEntry) :
    ∀ e ∈ assignRanks i l, e.entry ∈ l := by
  induction l generalizing i with
  | nil => intro e h; simp [assignRanks] at h
  | cons a t ih =>
    intro e he
    rcases List.mem_cons.mp he with rfl | hmem
    · exact List.mem_cons_self _ _
    · exact List.mem_cons_of_mem _ (ih (i + 1) e hmem)

theorem assignRanks_pairwise {R : RankEntry → RankEntry → Prop} (i : ℕ)
    (l : List RankEntry) (h : l.Pairwise R) :
    (assignRanks i l).Pairwise (fun x y => R x.entry y.entry) := by
  induction l generalizing i with
  | nil => simp [assignRanks]
  | cons e t ih =>
    rw [List.pairwise_cons] at h
    simp only [assignRanks]
    rw [List.pairwise_cons]
    refine ⟨?_, ih (i + 1) h.2⟩
    intro y hy
    exact h.1 y.entry (assignRanks_entry_mem (i + 1) t y hy)

/-- **C2.** The batch ranking output is sorted by non-increasing
normalized score, has length at most `top_n`, carries 1-based rank fields
1, 2, …, k in list order, and contains no entry whose expected inbreeding
exceeds `max_inbreeding` and none carrying a critical haplotype risk
record (such candidates are filtered out before ranking). -/
theorem C2_rank_output (female : Record) (bulls : List Record) (top_n : ℕ)
    (max_inb : ℚ) (cw : Option (List (String × ℚ))) :
    (rank_bulls_for_female female bulls top_n max_inb cw).Pairwise
      (fun x y => y.entry.iep ≤ x.entry.iep) ∧
    (rank_bulls_for_female female bulls top_n max_inb cw).length ≤ top_n ∧
    (∀ k (h : k < (rank_bulls_for_female female bulls top_n max_inb cw).length),
      ((rank_bulls_for_female female bulls top_n max_inb cw).get ⟨k, h⟩).rank = k + 1) ∧
    (∀ e ∈ rank_bulls_for_female female bulls top_n max_inb cw,
      e.entry.inbreeding ≤ max_inb ∧
      ∀ r ∈ e.entry.full_analysis.inbreeding.haplotype_risks, r.severity ≠ "critical") := by
  refine ⟨?_, ?_, ?_, ?_⟩
  · exact assignRanks_pairwise 1 _
      ((sortDescIep_sorted _).sublist (List.take_sublist _ _))
  · rw [rank_bulls_for_female, assignRanks_length]
    exact (List.length_take_le _ _)
  · intro k h
    have hr := assignRanks_rank 1 _ k h
    rw [Nat.add_comm] at hr
    exact hr
  · intro e he
    have hmem : e.entry ∈ sortDescIep (bulls.filterMap (fun bull_data =>
        let iep_result := calculate_economic_index female bull_data cw
        let inbreeding := iep_result.inbreeding.expected_inbreeding
        if inbreeding > max_inb then Option.none
        else if !(iep_result.inbreeding.haplotype_risks.filter
            (fun r => r.severity == "critical")).isEmpty then Option.none
        else some (rankEntry bull_data iep_result))) :=
      (List.take_sublist _ _).subset (assignRanks_entry_mem 1 _ e he)
    rw [mem_sortDescIep] at hmem
    obtain ⟨bd, hbd, hF⟩ := List.mem_filterMap.mp hmem
    dsimp only at hF
    split_ifs at hF with hinb hcrit
    have heq : rankEntry bd (calculate_economic_index female bd cw) = e.entry :=
      Option.some.inj hF
    have hinb' : e.entry.inbreeding =
        (calculate_economic_index female bd cw).inbreeding.expected_inbreeding := by
      rw [← heq]
      rfl
    have hrisks : e.entry.full_analysis.inbreeding.haplotype_risks =
        (calculate_economic_index female bd cw).inbreeding.haplotype_risks := by
      rw [← heq]
      rfl
    constructor
    · rw [hinb']
      exact le_of_not_gt hinb
    · intro r hr
      rw [hrisks] at hr
      have hisEmpty : ((calculate_economic_index female bd cw).inbreeding.haplotype_risks.filter
          (fun r => r.severity == "critical")).isEmpty = true := by
        revert hcrit
        cases ((calculate_economic_index female bd cw).inbreeding.haplotype_risks.filter
          (fun r => r.severity == "critical")).isEmpty <;> simp
      have hfil := List.isEmpty_iff.mp hisEmpty
      have hne := List.filter_eq_nil_iff.mp hfil r hr
      simpa using hne

end Genefy
